/-
  Verification of the exo_task cooperative executor crate.

  Shallow embedding of src/task.rs, src/simple_executor.rs and
  src/executor.rs.  Machine integers are modelled as Nat with explicit
  `% 2 ^ 64` where wraparound matters; panics are modelled as
  `Except.error` / `Option.none`; the BTreeMap containers are modelled as
  association lists with replace-on-insert semantics; crossbeam's
  `ArrayQueue` is a bounded FIFO list.  A future (`Pin<Box<dyn Future>>`)
  is modelled as an opaque state machine: a Nat state together with a step
  function returning the poll result, the successor state, and the number
  of times the context's waker was invoked during that poll.
-/
import Mathlib

namespace ExoTask

/-- Task identifiers wrap an unsigned 64-bit integer (task.rs, `TaskId(u64)`). -/
abbrev TaskId := Nat

/-- Modulus of the u64 counter backing TaskId allocation. -/
def U64MOD : Nat := 2 ^ 64

/-- One allocation step of the process-wide counter (task.rs, `TaskId::new`):
`NEXT_ID.fetch_add(1, Relaxed)` returns the old value as the new id and
stores the wrapped successor. -/
def TaskId.new (next_id : Nat) : TaskId × Nat :=
  (next_id, (next_id + 1) % U64MOD)

/-- Counter value before the k-th allocation, starting from the static
initialiser `AtomicU64::new(0)`. -/
def counterAfter : Nat → Nat
  | 0 => 0
  | k + 1 => (TaskId.new (counterAfter k)).2

/-- The identifier issued by the k-th allocation (0-indexed). -/
def issuedId (k : Nat) : TaskId := (TaskId.new (counterAfter k)).1

/-- Result of polling a future (`core::task::Poll<()>`). -/
inductive Poll where
  | Ready : Poll
  | Pending : Poll
deriving DecidableEq

/-- A type-erased suspendable computation (`Pin<Box<dyn Future<Output = ()>>>`):
an internal state plus a deterministic step.  `step s = (r, s2, w)` means a
poll in state `s` returns `r`, leaves the future in state `s2`, and invoked
the context's waker `w` times during the poll. -/
structure FutureObj where
  state : Nat
  step : Nat → Poll × Nat × Nat

/-- A task: heap-allocated future plus its unique identifier (task.rs). -/
structure Task where
  id : TaskId
  future : FutureObj

/-- Task construction (task.rs, `Task::new`): allocates a fresh TaskId from
the counter and boxes the future.  Returns the task and the new counter. -/
def Task.new (future : FutureObj) (next_id : Nat) : Task × Nat :=
  ({ id := (TaskId.new next_id).1, future := future }, (TaskId.new next_id).2)

/-- Polling a task (task.rs, `Task::poll`) delegates to the wrapped future
exactly once; returns the result, the mutated task, and the number of waker
invocations performed during the poll. -/
def Task.poll (t : Task) : Poll × Task × Nat :=
  ((t.future.step t.future.state).1,
   { id := t.id,
     future := { state := (t.future.step t.future.state).2.1, step := t.future.step } },
   (t.future.step t.future.state).2.2)

/-- A task completes within n polls: iterating `poll` reaches `Ready` after
at most n resumes.  (The wake counts are irrelevant here: the naive executor
polls with an inert waker.) -/
def completesWithin : Nat → Task → Bool
  | 0, _ => false
  | n + 1, t =>
    if (Task.poll t).1 = Poll.Ready then true else completesWithin n (Task.poll t).2.1

/-- The naive round-robin executor (simple_executor.rs): an owned VecDeque
of Tasks, front at the head of the list. -/
structure SimpleExecutor where
  task_queue : List Task

/-- simple_executor.rs, `SimpleExecutor::spawn`: push_back. -/
def SimpleExecutor.spawn (se : SimpleExecutor) (t : Task) : SimpleExecutor :=
  { task_queue := se.task_queue ++ [t] }

/-- simple_executor.rs, `SimpleExecutor::run`, fuelled: pop the front task,
poll it with the dummy no-op waker (so the wake count of the poll is
discarded), push it to the back on Pending, drop it on Ready, and return
when the queue is empty.  `none` means the fuel ran out before the loop
finished (a model artefact: the Rust loop just keeps going). -/
def simpleRun : Nat → SimpleExecutor → Option SimpleExecutor
  | 0, _ => none
  | fuel + 1, se =>
    match se.task_queue with
    | [] => some { task_queue := [] }
    | t :: rest =>
      if (Task.poll t).1 = Poll.Ready then
        simpleRun fuel { task_queue := rest }
      else
        simpleRun fuel { task_queue := rest ++ [(Task.poll t).2.1] }

/-- Lookup in an association-list model of `BTreeMap<TaskId, _>`. -/
def alookup {α : Type} : List (TaskId × α) → TaskId → Option α
  | [], _ => none
  | p :: rest, k => if p.1 = k then some p.2 else alookup rest k

/-- Erase a key from the map model (`BTreeMap::remove`, value discarded). -/
def aerase {α : Type} (l : List (TaskId × α)) (k : TaskId) : List (TaskId × α) :=
  l.filter (fun p => p.1 != k)

/-- Insert (replacing any previous binding) into the map model
(`BTreeMap::insert`, previous value discarded). -/
def ainsert {α : Type} (l : List (TaskId × α)) (k : TaskId) (v : α) : List (TaskId × α) :=
  (k, v) :: aerase l k

/-- A bounded-queue push (`crossbeam_queue::ArrayQueue::push`): appends at
the back, fails (Err) when the queue already holds `cap` elements. -/
def queuePush (cap : Nat) (q : List TaskId) (x : TaskId) : Option (List TaskId) :=
  if q.length < cap then some (q ++ [x]) else none

/-- A waker bound to one task (executor.rs, `TaskWaker`): it also holds an
`Arc` of the executor's single ready queue, which in this single-queue
model is passed explicitly to `wake_task`. -/
structure TaskWaker where
  task_id : TaskId

/-- executor.rs, `TaskWaker::wake_task`: push the bound id into the ready
queue; `.expect("task_queue full")` panics when the queue is full. -/
def TaskWaker.wake_task (w : TaskWaker) (cap : Nat) (q : List TaskId) :
    Except String (List TaskId) :=
  match queuePush cap q w.task_id with
  | none => Except.error "task_queue full"
  | some q2 => Except.ok q2

/-- The waking executor (executor.rs): task table, ready queue (with the
fixed capacity of its ArrayQueue), waker cache. -/
structure Executor where
  tasks : List (TaskId × Task)
  task_queue : List TaskId
  queue_capacity : Nat
  waker_cache : List (TaskId × TaskWaker)

/-- executor.rs, `Executor::new`: empty collections, `ArrayQueue::new(100)`. -/
def Executor.new : Executor :=
  { tasks := [], task_queue := [], queue_capacity := 100, waker_cache := [] }

/-- executor.rs, `Executor::spawn`: insert into the task table, panicking on
a duplicate id (the panic aborts before any post-state is observable), then
push the id into the ready queue, panicking via `.expect("queue full")` if
the queue is at capacity. -/
def Executor.spawn (e : Executor) (t : Task) : Except String Executor :=
  if (alookup e.tasks t.id).isSome then
    Except.error "task with same ID already in tasks"
  else
    match queuePush e.queue_capacity e.task_queue t.id with
    | none => Except.error "queue full"
    | some q => Except.ok { e with tasks := ainsert e.tasks t.id t, task_queue := q }

/-- executor.rs, `waker_cache.entry(task_id).or_insert_with(|| TaskWaker::new ...)`:
reuse the cached waker if present, otherwise create and cache one bound to
the task id (and, implicitly, the shared ready queue). -/
def cacheEnsure (cache : List (TaskId × TaskWaker)) (id : TaskId) :
    List (TaskId × TaskWaker) :=
  if (alookup cache id).isSome then cache else ainsert cache id { task_id := id }

/-- The pushes performed by the n waker invocations that happen during one
poll: each is `TaskWaker::wake_task`, i.e. a bounded push of the task's own
id; `none` models the panic on a full queue. -/
def selfWakes (cap : Nat) (q : List TaskId) (id : TaskId) : Nat → Option (List TaskId)
  | 0 => some q
  | n + 1 =>
    match queuePush cap q id with
    | none => none
    | some q2 => selfWakes cap q2 id n

/-- Outcome of one iteration of the drain loop in `run_ready_tasks`. -/
inductive StepOut where
  | empty : StepOut
  | fatal : String → StepOut
  | next : Executor → StepOut

/-- One iteration of the `while let Some(task_id) = task_queue.pop()` loop of
executor.rs, `Executor::run_ready_tasks`: pop the front id; skip it if the
task no longer exists; otherwise fetch-or-create the cached waker, poll the
task (its waker invocations push its id at the back of the queue, panicking
if the queue is full), and on `Ready` remove the task and its cached waker,
on `Pending` keep both (with the task's state updated in place by the poll). -/
def drainStep (e : Executor) : StepOut :=
  match e.task_queue with
  | [] => StepOut.empty
  | task_id :: rest =>
    match alookup e.tasks task_id with
    | none => StepOut.next { e with task_queue := rest }
    | some task =>
      match selfWakes e.queue_capacity rest task_id (Task.poll task).2.2 with
      | none => StepOut.fatal "task_queue full"
      | some q2 =>
        if (Task.poll task).1 = Poll.Ready then
          StepOut.next { tasks := aerase e.tasks task_id,
                         task_queue := q2,
                         queue_capacity := e.queue_capacity,
                         waker_cache := aerase (cacheEnsure e.waker_cache task_id) task_id }
        else
          StepOut.next { tasks := ainsert e.tasks task_id (Task.poll task).2.1,
                         task_queue := q2,
                         queue_capacity := e.queue_capacity,
                         waker_cache := cacheEnsure e.waker_cache task_id }

/-- Outcome of a whole fuelled drain pass. -/
inductive DrainOut where
  | ok : Executor → DrainOut
  | fatal : String → DrainOut
  | outOfFuel : DrainOut

/-- executor.rs, `Executor::run_ready_tasks`, fuelled: iterate `drainStep`
until the queue is empty.  `outOfFuel` is a model artefact (the Rust loop
simply keeps popping). -/
def runReadyTasks : Nat → Executor → DrainOut
  | 0, _ => DrainOut.outOfFuel
  | fuel + 1, e =>
    match drainStep e with
    | StepOut.empty => DrainOut.ok e
    | StepOut.fatal m => DrainOut.fatal m
    | StepOut.next e2 => runReadyTasks fuel e2

/-- Observable processor state for the idle policy: whether external
interrupt delivery is enabled, and whether the processor has executed `hlt`
(halted until the next interrupt). -/
structure MachineState where
  interrupts_enabled : Bool
  halted : Bool

/-- executor.rs, `Executor::sleep_if_idle`.  With the `x86_64_support`
feature: `interrupts::disable()`, then re-check the queue (the model takes
`e.task_queue` to be the queue contents at this post-disable check, so any
wake that arrived before the disable is visible here), then
`enable_and_hlt()` if it is still empty, else `interrupts::enable()`.
Without the feature the body is empty. -/
def Executor.sleep_if_idle (support : Bool) (e : Executor) (m : MachineState) :
    MachineState :=
  if support then
    let m1 : MachineState := { m with interrupts_enabled := false }
    if e.task_queue.isEmpty then
      { m1 with interrupts_enabled := true, halted := true }
    else
      { m1 with interrupts_enabled := true }
  else m

lemma alookup_ainsert_self {α : Type} (l : List (TaskId × α)) (k : TaskId) (v : α) :
    alookup (ainsert l k v) k = some v := by
  simp [ainsert, alookup]

lemma alookup_aerase_self {α : Type} (l : List (TaskId × α)) (k : TaskId) :
    alookup (aerase l k) k = none := by
  induction l with
  | nil => rfl
  | cons p rest ih =>
    unfold aerase at ih ⊢
    rw [List.filter_cons]
    by_cases h : p.1 = k
    · simp [h, ih]
    · simp [h, alookup, ih]

lemma alookup_aerase_ne {α : Type} (l : List (TaskId × α)) (k k2 : TaskId)
    (hne : k2 ≠ k) : alookup (aerase l k) k2 = alookup l k2 := by
  induction l with
  | nil => rfl
  | cons p rest ih =>
    unfold aerase at ih ⊢
    rw [List.filter_cons]
    by_cases h : p.1 = k
    · subst h
      have : p.1 ≠ k2 := fun hcontra => hne (hcontra ▸ rfl)
      simp [alookup, this, ih]
    · simp only [h, bne_iff_ne, ne_eq, not_false_eq_true, if_true]
      by_cases h2 : p.1 = k2 <;> simp [alookup, h2, ih]

lemma alookup_ainsert_ne {α : Type} (l : List (TaskId × α)) (k k2 : TaskId) (v : α)
    (hne : k2 ≠ k) : alookup (ainsert l k v) k2 = alookup l k2 := by
  unfold ainsert
  have : k ≠ k2 := fun hcontra => hne hcontra.symm
  simp [alookup, this, alookup_aerase_ne l k k2 hne]

lemma alookup_cacheEnsure_self (cache : List (TaskId × TaskWaker)) (id : TaskId) :
    (alookup (cacheEnsure cache id) id).isSome = true := by
  unfold cacheEnsure
  split
  · assumption
  · simp [alookup_ainsert_self]

lemma alookup_cacheEnsure_ne (cache : List (TaskId × TaskWaker)) (id k2 : TaskId)
    (hne : k2 ≠ id) : alookup (cacheEnsure cache id) k2 = alookup cache k2 := by
  unfold cacheEnsure
  split
  · rfl
  · exact alookup_ainsert_ne cache id k2 _ hne

lemma queuePush_some {cap : Nat} {q q2 : List TaskId} {x : TaskId}
    (h : queuePush cap q x = some q2) : q.length < cap ∧ q2 = q ++ [x] := by
  unfold queuePush at h
  split at h
  · injection h with h
    exact ⟨by assumption, h.symm⟩
  · cases h

lemma queuePush_fits {cap : Nat} {q : List TaskId} (x : TaskId)
    (h : q.length < cap) : queuePush cap q x = some (q ++ [x]) := by
  simp [queuePush, h]

lemma queuePush_full {cap : Nat} {q : List TaskId} (x : TaskId)
    (h : cap ≤ q.length) : queuePush cap q x = none := by
  simp [queuePush]
  omega

lemma selfWakes_shape (cap : Nat) (id : TaskId) :
    ∀ (n : Nat) (q q2 : List TaskId), selfWakes cap q id n = some q2 →
      q2 = q ++ List.replicate n id := by
  intro n
  induction n with
  | zero =>
    intro q q2 h
    injection h with h
    simp [h.symm]
  | succ n ih =>
    intro q q2 h
    simp only [selfWakes] at h
    cases hp : queuePush cap q id with
    | none => rw [hp] at h; cases h
    | some q3 =>
      rw [hp] at h
      obtain ⟨-, hq3⟩ := queuePush_some hp
      subst hq3
      have := ih (q ++ [id]) q2 h
      rw [this, List.append_assoc, List.replicate_succ]
      rfl

lemma selfWakes_fits (cap : Nat) (id : TaskId) :
    ∀ (n : Nat) (q : List TaskId), q.length + n ≤ cap →
      selfWakes cap q id n = some (q ++ List.replicate n id) := by
  intro n
  induction n with
  | zero => intro q h; simp [selfWakes]
  | succ n ih =>
    intro q h
    have hlt : q.length < cap := by omega
    simp only [selfWakes]
    rw [queuePush_fits id hlt]
    show selfWakes cap (q ++ [id]) id n = some (q ++ List.replicate (n + 1) id)
    rw [ih (q ++ [id]) (by simp; omega)]
    rw [List.append_assoc, List.replicate_succ]
    rfl

lemma poll_ready_or_pending (p : Poll) : p = Poll.Ready ∨ p = Poll.Pending := by
  cases p
  · exact Or.inl rfl
  · exact Or.inr rfl

lemma drainStep_nil (tasks : List (TaskId × Task)) (cap : Nat)
    (cache : List (TaskId × TaskWaker)) :
    drainStep ⟨tasks, [], cap, cache⟩ = StepOut.empty := rfl

lemma drainStep_stale {tasks : List (TaskId × Task)} {id : TaskId}
    (rest : List TaskId) (cap : Nat) (cache : List (TaskId × TaskWaker))
    (ht : alookup tasks id = none) :
    drainStep ⟨tasks, id :: rest, cap, cache⟩ = StepOut.next ⟨tasks, rest, cap, cache⟩ := by
  simp [drainStep, ht]

lemma drainStep_overflow {tasks : List (TaskId × Task)} {id : TaskId} {t : Task}
    {rest : List TaskId} {cap : Nat} (cache : List (TaskId × TaskWaker))
    (ht : alookup tasks id = some t)
    (hw : selfWakes cap rest id (Task.poll t).2.2 = none) :
    drainStep ⟨tasks, id :: rest, cap, cache⟩ = StepOut.fatal "task_queue full" := by
  simp [drainStep, ht, hw]

lemma drainStep_ready {tasks : List (TaskId × Task)} {id : TaskId} {t : Task}
    {rest q2 : List TaskId} {cap : Nat} (cache : List (TaskId × TaskWaker))
    (ht : alookup tasks id = some t)
    (hw : selfWakes cap rest id (Task.poll t).2.2 = some q2)
    (hr : (Task.poll t).1 = Poll.Ready) :
    drainStep ⟨tasks, id :: rest, cap, cache⟩ =
      StepOut.next ⟨aerase tasks id, q2, cap, aerase (cacheEnsure cache id) id⟩ := by
  simp [drainStep, ht, hw, hr]

lemma drainStep_pending {tasks : List (TaskId × Task)} {id : TaskId} {t : Task}
    {rest q2 : List TaskId} {cap : Nat} (cache : List (TaskId × TaskWaker))
    (ht : alookup tasks id = some t)
    (hw : selfWakes cap rest id (Task.poll t).2.2 = some q2)
    (hp : (Task.poll t).1 = Poll.Pending) :
    drainStep ⟨tasks, id :: rest, cap, cache⟩ =
      StepOut.next ⟨ainsert tasks id (Task.poll t).2.1, q2, cap, cacheEnsure cache id⟩ := by
  simp [drainStep, ht, hw, hp]

lemma drainStep_cons_ne_empty (tasks : List (TaskId × Task)) (id : TaskId)
    (rest : List TaskId) (cap : Nat) (cache : List (TaskId × TaskWaker)) :
    drainStep ⟨tasks, id :: rest, cap, cache⟩ ≠ StepOut.empty := by
  cases ht : alookup tasks id with
  | none => rw [drainStep_stale rest cap cache ht]; simp
  | some t =>
    cases hw : selfWakes cap rest id (Task.poll t).2.2 with
    | none => rw [drainStep_overflow cache ht hw]; simp
    | some q2 =>
      cases poll_ready_or_pending (Task.poll t).1 with
      | inl hr => rw [drainStep_ready cache ht hw hr]; simp
      | inr hp => rw [drainStep_pending cache ht hw hp]; simp

lemma drainStep_empty_queue {e : Executor} (h : drainStep e = StepOut.empty) :
    e.task_queue = [] := by
  obtain ⟨tasks, q, cap, cache⟩ := e
  cases q with
  | nil => rfl
  | cons id rest => exact absurd h (drainStep_cons_ne_empty tasks id rest cap cache)

lemma runReadyTasks_ok_empty :
    ∀ (fuel : Nat) (e e2 : Executor), runReadyTasks fuel e = DrainOut.ok e2 →
      e2.task_queue = [] ∧ drainStep e2 = StepOut.empty := by
  intro fuel
  induction fuel with
  | zero => intro e e2 h; cases h
  | succ fuel ih =>
    intro e e2 h
    simp only [runReadyTasks] at h
    cases hd : drainStep e with
    | empty =>
      rw [hd] at h
      injection h with h
      subst h
      exact ⟨drainStep_empty_queue hd, hd⟩
    | fatal m => rw [hd] at h; cases h
    | next e3 =>
      rw [hd] at h
      exact ih e3 e2 h

/-- A future that completes on its first poll without invoking the waker. -/
def readyNowFut : FutureObj := { state := 0, step := fun s => (Poll.Ready, s, 0) }

/-- A future that suspends on every poll without invoking the waker. -/
def pendingFut : FutureObj := { state := 0, step := fun s => (Poll.Pending, s, 0) }

/-- A concrete task with id 0 that completes immediately. -/
def readyTask0 : Task := { id := 0, future := readyNowFut }

/-- A concrete task with id 0 that always suspends. -/
def pendingTask0 : Task := { id := 0, future := pendingFut }

/-- C1: when a drain-step poll of a managed task returns Complete
(`Poll::Ready`), the executor removes that task's entry from the task table
and its cached waker from the waker cache; and once the entry is gone, any
later pop of the same identifier is skipped — so a task that completes on
its first resume is removed after exactly one resume and never resumed
again. -/
theorem complete_removes_task_and_waker
    (tasks : List (TaskId × Task)) (id : TaskId) (rest q2 : List TaskId)
    (cap : Nat) (cache : List (TaskId × TaskWaker)) (t : Task)
    (ht : alookup tasks id = some t)
    (hr : (Task.poll t).1 = Poll.Ready)
    (hw : selfWakes cap rest id (Task.poll t).2.2 = some q2) :
    drainStep ⟨tasks, id :: rest, cap, cache⟩ =
      StepOut.next ⟨aerase tasks id, q2, cap, aerase (cacheEnsure cache id) id⟩ ∧
    alookup (aerase tasks id) id = none ∧
    alookup (aerase (cacheEnsure cache id) id) id = none ∧
    (∀ (tasks2 : List (TaskId × Task)) (rest2 : List TaskId) (cap2 : Nat)
       (cache2 : List (TaskId × TaskWaker)), alookup tasks2 id = none →
       drainStep ⟨tasks2, id :: rest2, cap2, cache2⟩ =
         StepOut.next ⟨tasks2, rest2, cap2, cache2⟩) :=
  ⟨drainStep_ready cache ht hw hr, alookup_aerase_self _ _, alookup_aerase_self _ _,
   fun _ rest2 cap2 cache2 h2 => drainStep_stale rest2 cap2 cache2 h2⟩

/-- Witness for C1: a single task that completes on its first poll is removed
from both maps by one drain step. -/
theorem complete_removes_task_and_waker_witness :
    drainStep ⟨[(0, readyTask0)], [0], 100, []⟩ =
      StepOut.next ⟨aerase [(0, readyTask0)] 0, [], 100, aerase (cacheEnsure [] 0) 0⟩ ∧
    alookup (aerase [(0, readyTask0)] 0) (0 : TaskId) = none := by
  have h := complete_removes_task_and_waker [(0, readyTask0)] 0 [] [] 100 [] readyTask0
    rfl rfl rfl
  exact ⟨h.1, h.2.1⟩

/-- C2: when a drain-step poll returns Suspended (`Poll::Pending`), the
executor leaves the task-table entry (with the task's state updated in place
by the poll) and the cached waker in place, and puts nothing into the ready
queue beyond the pushes made by the waker invocations that happened during
the poll — in particular nothing at all when the poll invoked no waker; the
identifier is re-inserted only by an invocation of the task's waker, whose
`wake_task` appends it to the queue. -/
theorem pending_leaves_entries_and_does_not_reenqueue
    (tasks : List (TaskId × Task)) (id : TaskId) (rest q : List TaskId)
    (cap : Nat) (cache : List (TaskId × TaskWaker)) (t : Task)
    (ht : alookup tasks id = some t)
    (hp : (Task.poll t).1 = Poll.Pending)
    (hfit : rest.length + (Task.poll t).2.2 ≤ cap)
    (hq : q.length < cap) :
    drainStep ⟨tasks, id :: rest, cap, cache⟩ =
      StepOut.next ⟨ainsert tasks id (Task.poll t).2.1,
                    rest ++ List.replicate (Task.poll t).2.2 id, cap,
                    cacheEnsure cache id⟩ ∧
    alookup (ainsert tasks id (Task.poll t).2.1) id = some (Task.poll t).2.1 ∧
    (alookup (cacheEnsure cache id) id).isSome = true ∧
    ((Task.poll t).2.2 = 0 → rest ++ List.replicate (Task.poll t).2.2 id = rest) ∧
    TaskWaker.wake_task ⟨id⟩ cap q = Except.ok (q ++ [id]) := by
  refine ⟨?_, alookup_ainsert_self _ _ _, alookup_cacheEnsure_self _ _, ?_, ?_⟩
  · exact drainStep_pending cache ht (selfWakes_fits cap id _ rest hfit) hp
  · intro h0; rw [h0]; simp
  · simp [TaskWaker.wake_task, queuePush_fits id hq]

/-- Witness for C2: a single always-pending task stays in the table and in
the waker cache, and the queue is left exactly drained. -/
theorem pending_leaves_entries_witness :
    drainStep ⟨[(0, pendingTask0)], [0], 100, []⟩ =
      StepOut.next ⟨ainsert [(0, pendingTask0)] 0 (Task.poll pendingTask0).2.1,
                    [] ++ List.replicate (Task.poll pendingTask0).2.2 0, 100,
                    cacheEnsure [] 0⟩ ∧
    TaskWaker.wake_task ⟨0⟩ 100 [] = Except.ok ([] ++ [0]) := by
  have h := pending_leaves_entries_and_does_not_reenqueue [(0, pendingTask0)] 0 [] []
    100 [] pendingTask0 rfl rfl (by decide) (by decide)
  exact ⟨h.1, h.2.2.2.2⟩

/-- C3: an identifier popped from the ready queue that has no entry in the
task table (a stale wake) is skipped without error: the drain step just
moves on, leaving the task table, the waker cache and everything else
unchanged. -/
theorem stale_wake_skipped
    (tasks : List (TaskId × Task)) (id : TaskId) (rest : List TaskId)
    (cap : Nat) (cache : List (TaskId × TaskWaker))
    (ht : alookup tasks id = none) :
    drainStep ⟨tasks, id :: rest, cap, cache⟩ = StepOut.next ⟨tasks, rest, cap, cache⟩ :=
  drainStep_stale rest cap cache ht

/-- Witness for C3: a queue holding the id of a never-spawned task is drained
by skipping, with all other state untouched. -/
theorem stale_wake_skipped_witness :
    drainStep ⟨[(1, pendingTask0)], [0], 100, []⟩ =
      StepOut.next ⟨[(1, pendingTask0)], [], 100, []⟩ :=
  stale_wake_skipped [(1, pendingTask0)] 0 [] 100 [] rfl

/-- C4: spawning a task whose identifier is already in the task table is a
fatal condition (panic): spawn never returns a successor state, so the
previously stored task is not observably replaced or orphaned. -/
theorem duplicate_spawn_fatal (e : Executor) (t : Task)
    (h : (alookup e.tasks t.id).isSome = true) :
    Executor.spawn e t = Except.error "task with same ID already in tasks" ∧
    ∀ e2 : Executor, Executor.spawn e t ≠ Except.ok e2 := by
  have hs : Executor.spawn e t = Except.error "task with same ID already in tasks" := by
    unfold Executor.spawn
    simp [h]
  refine ⟨hs, fun e2 hcontra => ?_⟩
  rw [hs] at hcontra
  cases hcontra

/-- Witness for C4: re-spawning a task with the already-present id 0 aborts. -/
theorem duplicate_spawn_fatal_witness :
    Executor.spawn ⟨[(0, pendingTask0)], [0], 100, []⟩ readyTask0 =
      Except.error "task with same ID already in tasks" :=
  (duplicate_spawn_fatal ⟨[(0, pendingTask0)], [0], 100, []⟩ readyTask0 rfl).1

/-- C5: a new Executor's ready queue has fixed capacity exactly 100, and
every insertion into a full queue is fatal rather than a silent drop: spawn
panics via `.expect("queue full")` and a waker invocation panics via
`.expect("task_queue full")`. -/
theorem queue_capacity_100_and_overflow_fatal (e : Executor) (t : Task) (w : TaskWaker)
    (hfull : e.queue_capacity ≤ e.task_queue.length)
    (hfresh : alookup e.tasks t.id = none) :
    Executor.new.queue_capacity = 100 ∧
    Executor.spawn e t = Except.error "queue full" ∧
    TaskWaker.wake_task w e.queue_capacity e.task_queue = Except.error "task_queue full" := by
  refine ⟨rfl, ?_, ?_⟩
  · unfold Executor.spawn
    rw [hfresh]
    simp [queuePush_full t.id hfull]
  · simp [TaskWaker.wake_task, queuePush_full w.task_id hfull]

/-- Witness for C5: with 100 ids already queued, both a fresh spawn and a
waker invocation hit the fatal path. -/
theorem queue_capacity_overflow_witness :
    Executor.spawn ⟨[], List.replicate 100 0, 100, []⟩ readyTask0 =
      Except.error "queue full" ∧
    TaskWaker.wake_task ⟨0⟩ 100 (List.replicate 100 0) =
      Except.error "task_queue full" := by
  have h := queue_capacity_100_and_overflow_fatal ⟨[], List.replicate 100 0, 100, []⟩
    readyTask0 ⟨0⟩ (by simp) rfl
  exact ⟨h.2.1, h.2.2⟩

lemma counterAfter_mod (k : Nat) : counterAfter k = k % U64MOD := by
  induction k with
  | zero => rfl
  | succ k ih =>
    show (TaskId.new (counterAfter k)).2 = (k + 1) % U64MOD
    rw [ih]
    show (k % U64MOD + 1) % U64MOD = (k + 1) % U64MOD
    exact Nat.mod_add_mod k U64MOD 1

lemma issuedId_eq (k : Nat) : issuedId k = k % U64MOD := counterAfter_mod k

/-- C6 counterexample: the u64 counter behind `TaskId::new` wraps
(`fetch_add` is wrapping arithmetic), so allocation number 2^64 receives the
very same identifier as allocation number 0 — identifiers issued across an
unbounded process lifetime are not pairwise distinct. -/
theorem taskid_wraparound_collision :
    issuedId U64MOD = issuedId 0 ∧ U64MOD ≠ 0 := by
  constructor
  · rw [issuedId_eq, issuedId_eq, Nat.mod_self, Nat.zero_mod]
  · simp [U64MOD]

/-- C6 amended: the generator is a single process-wide counter that starts at
0 and increments by 1 per allocation, and all identifiers issued by the
first 2^64 allocations are pairwise distinct (the counter is touched only by
allocation, never by completion, so this is independent of interleaving);
only after 2^64 allocations does the u64 counter wrap. -/
theorem taskid_distinct_before_wrap (i j : Nat) (hij : i < j) (hj : j < U64MOD) :
    issuedId 0 = 0 ∧ issuedId (i + 1) = issuedId i + 1 ∧ issuedId i ≠ issuedId j := by
  have hi : i < U64MOD := lt_trans hij hj
  have hi1 : i + 1 < U64MOD := lt_of_le_of_lt hij hj
  refine ⟨rfl, ?_, ?_⟩
  · rw [issuedId_eq, issuedId_eq, Nat.mod_eq_of_lt hi1, Nat.mod_eq_of_lt hi]
  · rw [issuedId_eq, issuedId_eq, Nat.mod_eq_of_lt hi, Nat.mod_eq_of_lt hj]
    exact Nat.ne_of_lt hij

/-- Witness for the amended C6 at the first two allocations. -/
theorem taskid_distinct_witness :
    issuedId 0 = 0 ∧ issuedId (0 + 1) = issuedId 0 + 1 ∧ issuedId 0 ≠ issuedId 1 :=
  taskid_distinct_before_wrap 0 1 (by decide) (by decide)

/-- Future of the self-waking task: its first poll invokes the context waker
once and suspends; its second poll completes. -/
def selfWakeStep : Nat → Poll × Nat × Nat :=
  fun s => if s = 0 then (Poll.Pending, 1, 1) else (Poll.Ready, s + 1, 0)

/-- A task (id 0) that wakes itself during its first poll. -/
def selfWakeTask : Task := { id := 0, future := { state := 0, step := selfWakeStep } }

/-- Executor holding only the self-waking task, which is ready. -/
def selfWakeExec : Executor :=
  { tasks := [(0, selfWakeTask)], task_queue := [0], queue_capacity := 100,
    waker_cache := [] }

/-- C7 counterexample: the self-waking task suspends on its first poll after
re-inserting its own identifier into the ready queue, mid-pass.  A single
`run_ready_tasks` pass nevertheless completes and removes it (the final task
table is empty), which requires its second resume to have happened in that
same pass: the drain loop pops until the queue is empty, so an identifier
inserted while a pass is in progress is consumed by the same pass, not the
next one. -/
theorem same_pass_rewake_resumed_same_pass :
    (Task.poll selfWakeTask).1 = Poll.Pending ∧
    runReadyTasks 10 selfWakeExec =
      DrainOut.ok { tasks := [], task_queue := [], queue_capacity := 100,
                    waker_cache := [] } :=
  ⟨rfl, rfl⟩

/-- C7 amended: ready identifiers are consumed in FIFO order — each drain
step pops the front identifier, and the only insertions made during the step
are pushes of the polled task's own id appended at the back — and an
identifier inserted into the ready queue while a drain pass is in progress
is consumed during that same pass: the pass returns only once the queue is
empty. -/
theorem fifo_drain_until_empty
    (tasks : List (TaskId × Task)) (id : TaskId) (rest : List TaskId)
    (cap fuel : Nat) (cache : List (TaskId × TaskWaker)) (e2 efin e : Executor)
    (hstep : drainStep ⟨tasks, id :: rest, cap, cache⟩ = StepOut.next e2)
    (hrun : runReadyTasks fuel e = DrainOut.ok efin) :
    (∃ k, e2.task_queue = rest ++ List.replicate k id) ∧
    efin.task_queue = [] := by
  constructor
  · cases ht : alookup tasks id with
    | none =>
      rw [drainStep_stale rest cap cache ht] at hstep
      injection hstep with hstep
      exact ⟨0, by rw [← hstep]; simp⟩
    | some t =>
      cases hw : selfWakes cap rest id (Task.poll t).2.2 with
      | none => rw [drainStep_overflow cache ht hw] at hstep; cases hstep
      | some q2 =>
        have hq2 := selfWakes_shape cap id (Task.poll t).2.2 rest q2 hw
        cases poll_ready_or_pending (Task.poll t).1 with
        | inl hr =>
          rw [drainStep_ready cache ht hw hr] at hstep
          injection hstep with hstep
          exact ⟨(Task.poll t).2.2, by rw [← hstep]; exact hq2⟩
        | inr hp =>
          rw [drainStep_pending cache ht hw hp] at hstep
          injection hstep with hstep
          exact ⟨(Task.poll t).2.2, by rw [← hstep]; exact hq2⟩
  · exact (runReadyTasks_ok_empty fuel e efin hrun).1

/-- Witness for the amended C7 on a concrete stale pop and a concrete
two-step pass. -/
theorem fifo_drain_until_empty_witness :
    (∃ k, (⟨[], [], 100, []⟩ : Executor).task_queue = [] ++ List.replicate k 0) ∧
    (⟨[], [], 100, []⟩ : Executor).task_queue = [] :=
  fifo_drain_until_empty [] 0 [] 100 2 [] ⟨[], [], 100, []⟩ ⟨[], [], 100, []⟩
    ⟨[], [0], 100, []⟩ rfl rfl

lemma forallTwo_append_one {R : Task → Nat → Prop} {q : List Task} {bs : List Nat}
    (t : Task) (b : Nat) (h : List.Forall₂ R q bs) (hr : R t b) :
    List.Forall₂ R (q ++ [t]) (bs ++ [b]) := by
  induction h with
  | nil => exact List.Forall₂.cons hr List.Forall₂.nil
  | cons h1 _ ih => exact List.Forall₂.cons h1 ih

lemma simpleRun_total :
    ∀ (N : Nat) (bounds : List Nat) (q : List Task), bounds.sum ≤ N →
      List.Forall₂ (fun t b => completesWithin b t = true) q bounds →
      ∃ fuel, simpleRun fuel { task_queue := q } = some { task_queue := [] } := by
  intro N
  induction N with
  | zero =>
    intro bounds q hsum hall
    cases hall with
    | nil => exact ⟨1, rfl⟩
    | cons hb htail =>
      rename_i t b rest bs
      exfalso
      have hb0 : b = 0 := by
        have := List.sum_cons (a := b) (l := bs)
        omega
      rw [hb0] at hb
      simp [completesWithin] at hb
  | succ N ih =>
    intro bounds q hsum hall
    cases hall with
    | nil => exact ⟨1, rfl⟩
    | cons hb htail =>
      rename_i t b rest bs
      cases b with
      | zero => simp [completesWithin] at hb
      | succ b2 =>
        have hsums : (b2 + 1) + bs.sum ≤ N + 1 := by
          have := List.sum_cons (a := b2 + 1) (l := bs)
          omega
        cases poll_ready_or_pending (Task.poll t).1 with
        | inl hr =>
          obtain ⟨fuel, hf⟩ := ih bs rest (by omega) htail
          refine ⟨fuel + 1, ?_⟩
          simp only [simpleRun]
          simp [hr, hf]
        | inr hp =>
          have hb2 : completesWithin b2 (Task.poll t).2.1 = true := by
            rw [completesWithin] at hb
            simp [hp] at hb
            exact hb
          have hall2 : List.Forall₂ (fun t b => completesWithin b t = true)
              (rest ++ [(Task.poll t).2.1]) (bs ++ [b2]) :=
            forallTwo_append_one (Task.poll t).2.1 b2 htail hb2
          have hsum2 : (bs ++ [b2]).sum ≤ N := by
            rw [List.sum_append]
            simp
            omega
          obtain ⟨fuel, hf⟩ := ih (bs ++ [b2]) (rest ++ [(Task.poll t).2.1]) hsum2 hall2
          refine ⟨fuel + 1, ?_⟩
          simp only [simpleRun]
          simp [hp, hf]

/-- C8: whenever every spawned task completes within some finite number of
polls, `SimpleExecutor::run` terminates with an empty queue; and each cycle
removes the front task, polls it (with the inert dummy waker, whose
invocations are discarded), appends its updated state at the back when it
reports Pending, drops it when it reports Ready, and the run returns as soon
as the queue is empty. -/
theorem simple_run_terminates (bounds : List Nat) (se : SimpleExecutor)
    (h : List.Forall₂ (fun t b => completesWithin b t = true) se.task_queue bounds) :
    (∃ fuel, simpleRun fuel se = some { task_queue := [] }) ∧
    (∀ fuel : Nat, simpleRun (fuel + 1) { task_queue := ([] : List Task) } =
      some { task_queue := [] }) ∧
    (∀ (fuel : Nat) (t : Task) (rest : List Task), (Task.poll t).1 = Poll.Ready →
      simpleRun (fuel + 1) { task_queue := t :: rest } =
        simpleRun fuel { task_queue := rest }) ∧
    (∀ (fuel : Nat) (t : Task) (rest : List Task), (Task.poll t).1 = Poll.Pending →
      simpleRun (fuel + 1) { task_queue := t :: rest } =
        simpleRun fuel { task_queue := rest ++ [(Task.poll t).2.1] }) := by
  refine ⟨?_, fun fuel => rfl, ?_, ?_⟩
  · obtain ⟨tasks, rfl⟩ : ∃ q, se = SimpleExecutor.mk q := ⟨se.task_queue, rfl⟩
    exact simpleRun_total bounds.sum bounds tasks le_rfl h
  · intro fuel t rest hr
    simp only [simpleRun]
    simp [hr]
  · intro fuel t rest hp
    simp only [simpleRun]
    simp [hp]

/-- A concrete task that suspends on its first poll and completes on its
second. -/
def twoStepTask : Task :=
  { id := 5,
    future := { state := 0,
                step := fun s => if s = 0 then (Poll.Pending, 1, 0) else (Poll.Ready, s, 0) } }

/-- Witness for C8: a naive executor loaded with one task that completes on
its second poll terminates. -/
theorem simple_run_terminates_witness :
    ∃ fuel, simpleRun fuel { task_queue := [twoStepTask] } = some { task_queue := [] } :=
  (simple_run_terminates [2] { task_queue := [twoStepTask] }
    (List.Forall₂.cons (by decide) List.Forall₂.nil)).1

/-- C9: the idle policy disables interrupt delivery first and only then
checks the ready queue (so `e.task_queue` here is the queue as it stands
inside the disable window, after any wake that raced with the check), halts
with interrupts re-enabled exactly when that check still finds the queue
empty, skips the halt and just re-enables interrupts when it does not — so
the executor never enters a fresh halt while a ready identifier is queued —
and without the x86_64 capability the policy is a no-op. -/
theorem sleep_if_idle_check_then_halt (support : Bool) (e : Executor) (m : MachineState) :
    (Executor.sleep_if_idle false e m = m) ∧
    (e.task_queue = [] →
      Executor.sleep_if_idle true e m = { interrupts_enabled := true, halted := true }) ∧
    (e.task_queue ≠ [] →
      Executor.sleep_if_idle true e m = { interrupts_enabled := true, halted := m.halted }) ∧
    ((Executor.sleep_if_idle support e m).halted = true →
      m.halted = true ∨ e.task_queue = []) := by
  refine ⟨rfl, ?_, ?_, ?_⟩
  · intro hq
    simp [Executor.sleep_if_idle, hq]
  · intro hq
    simp [Executor.sleep_if_idle, List.isEmpty_iff, hq]
  · intro hh
    cases support with
    | false =>
      left
      simpa [Executor.sleep_if_idle] using hh
    | true =>
      by_cases hq : e.task_queue = []
      · exact Or.inr hq
      · left
        simpa [Executor.sleep_if_idle, List.isEmpty_iff, hq] using hh

/-- Witness for C9: on supported hardware with an empty queue the policy
halts with interrupts enabled; with a queued identifier it skips the halt. -/
theorem sleep_if_idle_witness :
    Executor.sleep_if_idle true ⟨[], [], 100, []⟩ ⟨true, false⟩ =
      { interrupts_enabled := true, halted := true } ∧
    Executor.sleep_if_idle true ⟨[], [0], 100, []⟩ ⟨true, false⟩ =
      { interrupts_enabled := true, halted := false } := by
  constructor
  · exact (sleep_if_idle_check_then_halt true ⟨[], [], 100, []⟩ ⟨true, false⟩).2.1 rfl
  · exact (sleep_if_idle_check_then_halt true ⟨[], [0], 100, []⟩ ⟨true, false⟩).2.2.1
      (by simp)

/-- The waker-cache/task-table relationship: every identifier with a cached
waker also has a live entry in the task table. -/
def CacheWithinTasks (e : Executor) : Prop :=
  ∀ id : TaskId, (alookup e.waker_cache id).isSome = true →
    (alookup e.tasks id).isSome = true

lemma cacheWithin_new : CacheWithinTasks Executor.new := by
  intro id h
  simp [Executor.new, alookup] at h

lemma cacheWithin_spawn {e e2 : Executor} {t : Task} (hinv : CacheWithinTasks e)
    (hsp : Executor.spawn e t = Except.ok e2) : CacheWithinTasks e2 := by
  unfold Executor.spawn at hsp
  split at hsp
  · cases hsp
  · split at hsp
    · cases hsp
    · injection hsp with hsp
      subst hsp
      intro id h
      have h2 : (alookup e.waker_cache id).isSome = true := h
      show (alookup (ainsert e.tasks t.id t) id).isSome = true
      by_cases hid : id = t.id
      · subst hid
        rw [alookup_ainsert_self]
        rfl
      · rw [alookup_ainsert_ne e.tasks t.id id t hid]
        exact hinv id h2

lemma cacheWithin_drainStep {e e2 : Executor} (hinv : CacheWithinTasks e)
    (hd : drainStep e = StepOut.next e2) : CacheWithinTasks e2 := by
  obtain ⟨tasks, q, cap, cache⟩ := e
  cases q with
  | nil => rw [drainStep_nil] at hd; cases hd
  | cons id rest =>
    cases ht : alookup tasks id with
    | none =>
      rw [drainStep_stale rest cap cache ht] at hd
      injection hd with hd
      subst hd
      exact hinv
    | some t =>
      cases hw : selfWakes cap rest id (Task.poll t).2.2 with
      | none => rw [drainStep_overflow cache ht hw] at hd; cases hd
      | some q2 =>
        cases poll_ready_or_pending (Task.poll t).1 with
        | inl hr =>
          rw [drainStep_ready cache ht hw hr] at hd
          injection hd with hd
          subst hd
          intro id2 h
          have h2 : (alookup (aerase (cacheEnsure cache id) id) id2).isSome = true := h
          show (alookup (aerase tasks id) id2).isSome = true
          by_cases hid : id2 = id
          · subst hid
            rw [alookup_aerase_self] at h2
            cases h2
          · rw [alookup_aerase_ne (cacheEnsure cache id) id id2 hid] at h2
            rw [alookup_cacheEnsure_ne cache id id2 hid] at h2
            rw [alookup_aerase_ne tasks id id2 hid]
            exact hinv id2 h2
        | inr hp =>
          rw [drainStep_pending cache ht hw hp] at hd
          injection hd with hd
          subst hd
          intro id2 h
          have h2 : (alookup (cacheEnsure cache id) id2).isSome = true := h
          show (alookup (ainsert tasks id (Task.poll t).2.1) id2).isSome = true
          by_cases hid : id2 = id
          · subst hid
            rw [alookup_ainsert_self]
            rfl
          · rw [alookup_cacheEnsure_ne cache id id2 hid] at h2
            rw [alookup_ainsert_ne tasks id id2 (Task.poll t).2.1 hid]
            exact hinv id2 h2

lemma cacheWithin_run :
    ∀ (fuel : Nat) (e e2 : Executor), CacheWithinTasks e →
      runReadyTasks fuel e = DrainOut.ok e2 → CacheWithinTasks e2 := by
  intro fuel
  induction fuel with
  | zero => intro e e2 _ h; cases h
  | succ fuel ih =>
    intro e e2 hinv h
    simp only [runReadyTasks] at h
    cases hd : drainStep e with
    | empty =>
      rw [hd] at h
      injection h with h
      subst h
      exact hinv
    | fatal m => rw [hd] at h; cases h
    | next e3 =>
      rw [hd] at h
      exact ih e3 e2 (cacheWithin_drainStep hinv hd) h

/-- C10: the identifiers with a cached waker are always a subset of those
with a task-table entry: the relation holds for a fresh executor and is
preserved by spawn, by every drain step (a waker is created only for a task
found in the table and is removed together with a completed task), and hence
by every whole drain pass. -/
theorem waker_cache_subset_of_tasks :
    CacheWithinTasks Executor.new ∧
    (∀ (e : Executor) (t : Task) (e2 : Executor), CacheWithinTasks e →
      Executor.spawn e t = Except.ok e2 → CacheWithinTasks e2) ∧
    (∀ e e2 : Executor, CacheWithinTasks e → drainStep e = StepOut.next e2 →
      CacheWithinTasks e2) ∧
    (∀ (fuel : Nat) (e e2 : Executor), CacheWithinTasks e →
      runReadyTasks fuel e = DrainOut.ok e2 → CacheWithinTasks e2) :=
  ⟨cacheWithin_new, fun _ _ _ hinv hsp => cacheWithin_spawn hinv hsp,
   fun _ _ hinv hd => cacheWithin_drainStep hinv hd, cacheWithin_run⟩

/-- Witness for C10: the invariant transported along a concrete spawn into a
fresh executor. -/
theorem waker_cache_subset_witness :
    CacheWithinTasks ⟨[(0, pendingTask0)], [0], 100, []⟩ := by
  have h := waker_cache_subset_of_tasks
  exact h.2.1 Executor.new pendingTask0 ⟨[(0, pendingTask0)], [0], 100, []⟩ h.1 rfl

end ExoTask
